import Mathlib

/-!
# Verification of the promo extraction & enrichment pipeline

Shallow embedding of the core pipeline of the `gmail-promo-agent` repository:
`parse_discount_value`, `parse_expiration`, `get_urgency_level` and
`enrich_promo_data` from `dashboard_generator_fixed.py`, `parse_email` and
`extract_promos_from_emails` from `gmail_agent_improved.py`, and the
deduplication stage.  Python dicts become association lists over a value
type `PVal`, Python `None`/absence becomes `Option`, the `datetime.max`
sentinel becomes `Option DateT` with `none` playing the role of the
sentinel, and Python exceptions caught by the source become `Option`
results of the corresponding Lean functions.
-/

namespace PromoAgent

/-! ## String helpers -/

/-- ASCII lower-casing of a string, the behaviour of Python `str.lower()`
on the ASCII strings the pipeline handles. -/
def lowerStr (s : String) : String := ⟨s.data.map Char.toLower⟩

/-- Numeric value of a digit character. -/
def digitVal (c : Char) : Nat := c.toNat - 48

/-- `containsSub pat s` is true iff `pat` occurs as a contiguous substring
of `s` — the behaviour of Python `pat in s`. -/
def containsSub (pat : List Char) : List Char → Bool
  | [] => pat.isEmpty
  | c :: rest => pat.isPrefixOf (c :: rest) || containsSub pat rest

/-! ## `parse_discount_value` (dashboard_generator_fixed.py, lines 11–30)

`re.search(r'(\d+)%', s)` finds the leftmost maximal digit run that is
immediately followed by `'%'` and returns its numeric value;
`re.search(r'\$(\d+)', s)` finds the leftmost `'$'` immediately followed
by a digit and returns the value of the maximal digit run after it. -/

/-- Scanner for `(\d+)%`: `acc` carries the value of the digit run
currently being read (`none` when the previous character was not a
digit). -/
def pctScanAux : Option Nat → List Char → Option Nat
  | _, [] => none
  | acc, c :: rest =>
    if c.isDigit then
      pctScanAux (some (10 * acc.getD 0 + digitVal c)) rest
    else if c = '%' then
      match acc with
      | some v => some v
      | none => pctScanAux none rest
    else pctScanAux none rest

/-- Leftmost match of the regex `(\d+)%`, as in the percentage branch of
`parse_discount_value`. -/
def pctSearch (s : List Char) : Option Nat := pctScanAux none s

/-- Value of the maximal leading digit run (helper for `dollarSearch`). -/
def readDigits : Nat → List Char → Nat
  | acc, [] => acc
  | acc, c :: rest => if c.isDigit then readDigits (10 * acc + digitVal c) rest else acc

/-- Leftmost match of the regex `\$(\d+)`, as in the dollar branch of
`parse_discount_value`. -/
def dollarSearch : List Char → Option Nat
  | [] => none
  | c :: rest =>
    if c = '$' then
      match rest with
      | [] => none
      | d :: _ => if d.isDigit then some (readDigits 0 rest) else dollarSearch rest
    else dollarSearch rest

/-- `parse_discount_value` from `dashboard_generator_fixed.py`.  The
Python function returns a float, but every value it produces is a whole
number, so the embedding uses `Nat`. -/
def parse_discount_value (s : String) : Nat :=
  if s = "" ∨ s = "Check email for details" then 0
  else
    match pctSearch s.data with
    | some v => v
    | none =>
      match dollarSearch s.data with
      | some v => 2 * v
      | none =>
        if containsSub "free".data (lowerStr s).data || containsSub "bogo".data (lowerStr s).data
        then 50
        else 0

/-! ## `parse_expiration` (dashboard_generator_fixed.py, lines 33–49)

`datetime.strptime` with the four formats `"%B %d, %Y"`, `"%b %d, %Y"`,
`"%m/%d/%Y"`, `"%m/%d/%y"`.  CPython's `_strptime` matches month names
case-insensitively, a literal space in the format as one-or-more
whitespace characters, `%d` as a 1–2 digit day in 1..31, `%m` as a
1–2 digit month in 1..12, `%Y` as exactly four digits, `%y` as exactly
two digits (00–68 ↦ 2000s, 69–99 ↦ 1900s), requires the whole input to
be consumed, and then validates the day against the month length.
`datetime.max` is represented by `none : Option DateT`. -/

/-- A calendar date as produced by `strptime`. -/
structure DateT where
  year : Nat
  month : Nat
  day : Nat
deriving DecidableEq, Repr

/-- Drop leading whitespace. -/
def dropWs : List Char → List Char
  | [] => []
  | c :: rest => if c.isWhitespace then dropWs rest else c :: rest

/-- Consume one-or-more whitespace characters (the translation of a
literal space in a `strptime` format). -/
def skipWs : List Char → Option (List Char)
  | [] => none
  | c :: rest => if c.isWhitespace then some (dropWs rest) else none

/-- Case-insensitively strip a (lower-case) literal name from the front
of the input. -/
def stripNameCI (name : List Char) (s : List Char) : Option (List Char) :=
  match name, s with
  | [], rest => some rest
  | _ :: _, [] => none
  | n :: ns, c :: cs => if c.toLower = n then stripNameCI ns cs else none

/-- Match one month name from `names`, returning its 1-based index. -/
def matchMonth (names : List (List Char)) (idx : Nat) (s : List Char) :
    Option (Nat × List Char) :=
  match names with
  | [] => none
  | nm :: rest =>
    match stripNameCI nm s with
    | some r => some (idx, r)
    | none => matchMonth rest (idx + 1) s

/-- The `%B` month names (C locale). -/
def monthNamesFull : List (List Char) :=
  ["january".data, "february".data, "march".data, "april".data, "may".data,
   "june".data, "july".data, "august".data, "september".data, "october".data,
   "november".data, "december".data]

/-- The `%b` month names (C locale). -/
def monthNamesAbbr : List (List Char) :=
  ["jan".data, "feb".data, "mar".data, "apr".data, "may".data, "jun".data,
   "jul".data, "aug".data, "sep".data, "oct".data, "nov".data, "dec".data]

/-- The `%d`/`%m` field: a two-digit number in `1..hi` (the two-digit
regex alternatives), else a single digit in `1..9`.  Mirrors the
backtracking behaviour of CPython's field regexes. -/
def read2or1 (hi : Nat) : List Char → Option (Nat × List Char)
  | c1 :: c2 :: rest =>
    if c1.isDigit && c2.isDigit then
      let v := 10 * digitVal c1 + digitVal c2
      if 1 ≤ v ∧ v ≤ hi then some (v, rest) else none
    else if c1.isDigit && decide (1 ≤ digitVal c1) then some (digitVal c1, c2 :: rest)
    else none
  | [c1] => if c1.isDigit && decide (1 ≤ digitVal c1) then some (digitVal c1, []) else none
  | [] => none

/-- Literal character. -/
def lit (c : Char) : List Char → Option (List Char)
  | x :: rest => if x = c then some rest else none
  | [] => none

/-- The `%Y` field: exactly four digits. -/
def readYear4 : List Char → Option (Nat × List Char)
  | a :: b :: c :: d :: rest =>
    if a.isDigit && b.isDigit && c.isDigit && d.isDigit then
      some (1000 * digitVal a + 100 * digitVal b + 10 * digitVal c + digitVal d, rest)
    else none
  | _ => none

/-- The `%y` field: exactly two digits, expanded per POSIX. -/
def readYear2 : List Char → Option (Nat × List Char)
  | a :: b :: rest =>
    if a.isDigit && b.isDigit then
      let v := 10 * digitVal a + digitVal b
      some ((if v ≤ 68 then 2000 + v else 1900 + v), rest)
    else none
  | _ => none

/-- Gregorian leap year. -/
def isLeap (y : Nat) : Bool := (y % 4 == 0 && y % 100 != 0) || y % 400 == 0

/-- Length of a month. -/
def monthLen (y m : Nat) : Nat :=
  if m = 2 then (if isLeap y then 29 else 28)
  else if m = 4 ∨ m = 6 ∨ m = 9 ∨ m = 11 then 30
  else 31

/-- `datetime(year, month, day)` construction: validates the day against
the month length and the year against `MINYEAR`/`MAXYEAR`. -/
def mkDate (y m d : Nat) : Option DateT :=
  if 1 ≤ y ∧ y ≤ 9999 ∧ d ≤ monthLen y m then some ⟨y, m, d⟩ else none

/-- `strptime` with format `"<month name> %d, %Y"`. -/
def tryMonthName (names : List (List Char)) (s : List Char) : Option DateT :=
  match matchMonth names 1 s with
  | none => none
  | some (m, r1) =>
    match skipWs r1 with
    | none => none
    | some r2 =>
      match read2or1 31 r2 with
      | none => none
      | some (d, r3) =>
        match lit ',' r3 with
        | none => none
        | some r4 =>
          match skipWs r4 with
          | none => none
          | some r5 =>
            match readYear4 r5 with
            | some (y, []) => mkDate y m d
            | _ => none

/-- `strptime` with format `"%B %d, %Y"`. -/
def tryFullMonth (s : List Char) : Option DateT := tryMonthName monthNamesFull s

/-- `strptime` with format `"%b %d, %Y"`. -/
def tryAbbrMonth (s : List Char) : Option DateT := tryMonthName monthNamesAbbr s

/-- `strptime` with format `"%m/%d/<year field>"`. -/
def trySlash (yearRead : List Char → Option (Nat × List Char)) (s : List Char) :
    Option DateT :=
  match read2or1 12 s with
  | none => none
  | some (m, r1) =>
    match lit '/' r1 with
    | none => none
    | some r2 =>
      match read2or1 31 r2 with
      | none => none
      | some (d, r3) =>
        match lit '/' r3 with
        | none => none
        | some r4 =>
          match yearRead r4 with
          | some (y, []) => mkDate y m d
          | _ => none

/-- `strptime` with format `"%m/%d/%Y"`. -/
def trySlash4 (s : List Char) : Option DateT := trySlash readYear4 s

/-- `strptime` with format `"%m/%d/%y"`. -/
def trySlash2 (s : List Char) : Option DateT := trySlash readYear2 s

/-- The fixed ordered format list of `parse_expiration`. -/
def fmtChain : List (List Char → Option DateT) :=
  [tryFullMonth, tryAbbrMonth, trySlash4, trySlash2]

/-- First successful parse from an ordered list of format attempts. -/
def firstSome : List (List Char → Option DateT) → List Char → Option DateT
  | [], _ => none
  | f :: fs, s => match f s with | some d => some d | none => firstSome fs s

/-! ## Python dict values -/

/-- Values stored in the promo dicts: strings, `None`, and the computed
integer/float/datetime fields added by enrichment. -/
inductive PVal where
  | vstr (s : String)
  | vnone
  | vint (n : Int)
  | vnat (n : Nat)
  | vdate (d : Option DateT)
deriving DecidableEq, Repr

/-- `parse_expiration` from `dashboard_generator_fixed.py`, applied to
`promo.get('expiration')`.  A missing key or `None` is falsy and yields
`datetime.max`; a non-string truthy value raises `TypeError` inside the
bare `try/except`, which also yields `datetime.max`; so every non-string
input maps to the sentinel (`none`). -/
def parse_expiration (v : Option PVal) : Option DateT :=
  match v with
  | some (.vstr s) => if s = "" then none else firstSome fmtChain s.data
  | _ => none

/-! ## `get_urgency_level` (dashboard_generator_fixed.py, lines 52–73)

`days_left = (expiration_date - datetime.now()).days`: the expiration is
a midnight datetime, `now` is a date (`nowDays` days since 1970-01-01)
plus a time of day (`nowSec` seconds), and `timedelta.days` is the floor
of the difference in days. -/

/-- Days since 1970-01-01 of a proleptic Gregorian date
(`days_from_civil`). -/
def toDays (dt : DateT) : Int :=
  let y : Int := if dt.month ≤ 2 then (dt.year : Int) - 1 else (dt.year : Int)
  let era : Int := (if 0 ≤ y then y else y - 399) / 400
  let yoe : Int := y - era * 400
  let mp : Int := ((dt.month : Int) + 9) % 12
  let doy : Int := (153 * mp + 2) / 5 + (dt.day : Int) - 1
  let doe : Int := yoe * 365 + yoe / 4 - yoe / 100 + doy
  era * 146097 + doe - 719468

/-- The moment `datetime.now()` returns: a day number plus seconds into
that day. -/
structure NowT where
  nowDays : Int
  nowSec : Nat
deriving DecidableEq, Repr

/-- `(expiration_date - datetime.now()).days`. -/
def daysLeftOf (now : NowT) (d : DateT) : Int :=
  Int.fdiv (toDays d * 86400 - (now.nowDays * 86400 + (now.nowSec : Int))) 86400

/-- The branch structure of `get_urgency_level` as a function of the
computed `days_left` (`none` encodes the `datetime.max` sentinel).
Returns `(urgency_text, urgency_class, days_left)`. -/
def urgencyOf (dl : Option Int) : String × String × Option Int :=
  match dl with
  | none => ("Unknown", "urgency-unknown", none)
  | some d =>
    if d < 0 then ("Expired", "urgency-expired", some d)
    else if d = 0 then ("Today", "urgency-critical", some 0)
    else if d = 1 then ("Tomorrow", "urgency-critical", some 1)
    else if d ≤ 3 then (toString d ++ " days", "urgency-high", some d)
    else if d ≤ 7 then (toString d ++ " days", "urgency-medium", some d)
    else (toString d ++ " days", "urgency-low", some d)

/-- `get_urgency_level` from `dashboard_generator_fixed.py`. -/
def get_urgency_level (now : NowT) (exp : Option DateT) : String × String × Option Int :=
  urgencyOf (exp.map (daysLeftOf now))

/-! ## `enrich_promo_data` (dashboard_generator_fixed.py, lines 76–116)

A promo dict is an association list; `dget` is `dict.get` (first entry
wins), `updateDict` is the dict-merge `{**promo, ...computed...}`. -/

/-- A Python dict. -/
abbrev Dict := List (String × PVal)

/-- `d.get(k)`: the value at key `k`, if present. -/
def dget (d : Dict) (k : String) : Option PVal :=
  (d.find? (fun kv => kv.1 == k)).map (·.2)

/-- A shallow value behaves like the strings/`None` the pipeline stores
in its records; other values make the Python source raise `TypeError`
in `re.search`/`len` and are outside the modelled input space. -/
def strOrNone : PVal → Bool
  | .vstr _ => true
  | .vnone => true
  | _ => false

/-- Is the value a string? -/
def isVstr : PVal → Bool
  | .vstr _ => true
  | _ => false

/-- Input-record wellformedness: all values are strings or `None`, and
the `subject` value, if present, is a string. -/
def okPromo (p : Dict) : Bool :=
  p.all (fun kv => strOrNone kv.2 && (!(kv.1 == "subject") || isVstr kv.2))

/-- Batch wellformedness. -/
def okBatch (ps : List Dict) : Bool := ps.all okPromo

/-- The dict merge `{**base, **upd}`, as a key → value map: keys of
`upd` take their `upd` value, the others keep their `base` value. -/
def updateDict (base upd : Dict) : Dict :=
  base.filter (fun kv => !(upd.any (fun uv => uv.1 == kv.1))) ++ upd

/-- `parse_discount_value(promo.get('discount', ''))`: an absent key
defaults to `''`, a `None` value (and any falsy value) is caught by the
`if not discount_str` guard and scores 0. -/
def discountValOf (p : Dict) : Nat :=
  match dget p "discount" with
  | none => parse_discount_value ""
  | some (.vstr s) => parse_discount_value s
  | some .vnone => 0
  | some _ => 0  -- non-string truthy values raise in Python; outside the modelled inputs

/-- `subject[:40] + '...' if len(subject) > 40 else subject`. -/
def truncSubject (s : String) : String :=
  if s.length > 40 then s.take 40 ++ "..." else s

/-- The merchant-name resolution of `enrich_promo_data`:
`promo.get('merchant', 'Unknown Merchant')`, falling back to the
(possibly truncated) subject when the merchant is falsy. -/
def merchantOf (p : Dict) : String :=
  let subjectFb : String :=
    truncSubject (match dget p "subject" with
      | some (.vstr s) => s
      | _ => "")
  match (dget p "merchant").getD (.vstr "Unknown Merchant") with
  | .vstr s => if s = "" then subjectFb else s
  | _ => subjectFb  -- `None` is falsy; other values are outside the modelled inputs

/-- The keys `enrich_promo_data` computes and writes into each record. -/
def computedKeys : List String :=
  ["expiration_date", "urgency_text", "urgency_class", "days_left",
   "discount_value", "display_expiration", "display_discount", "display_merchant"]

/-- The computed entries added to a surviving record. -/
def enrichFields (p : Dict) (exp : Option DateT) (ut uc : String) (dl : Int) : Dict :=
  [("expiration_date", .vdate exp),
   ("urgency_text", .vstr ut),
   ("urgency_class", .vstr uc),
   ("days_left", .vint dl),
   ("discount_value", .vnat (discountValOf p)),
   ("display_expiration", (dget p "expiration").getD (.vstr "No expiration")),
   ("display_discount", (dget p "discount").getD (.vstr "See email for details")),
   ("display_merchant", .vstr (merchantOf p))]

/-- The per-record body of the loop in `enrich_promo_data`: `none` when
the record is skipped (`days_left is not None and days_left < 0`),
otherwise the enriched dict (with `days_left` defaulted to 999 when
unknown). -/
def enrichOne (now : NowT) (p : Dict) : Option Dict :=
  let exp := parse_expiration (dget p "expiration")
  let u := get_urgency_level now exp
  match u.2.2 with
  | some d =>
    if d < 0 then none
    else some (updateDict p (enrichFields p exp u.1 u.2.1 d))
  | none => some (updateDict p (enrichFields p exp u.1 u.2.1 999))

/-- The sort key `(x['days_left'], -x['discount_value'])`. -/
def getIntD (p : Dict) (k : String) : Int :=
  match dget p k with
  | some (.vint n) => n
  | some (.vnat n) => (n : Int)
  | _ => 0

/-- Python tuple comparison of the sort keys, as a Bool relation. -/
def leKey (a b : Dict) : Bool :=
  decide (getIntD a "days_left" < getIntD b "days_left") ||
    (decide (getIntD a "days_left" = getIntD b "days_left") &&
      decide (-(getIntD a "discount_value") ≤ -(getIntD b "discount_value")))

/-- `enrich_promo_data` from `dashboard_generator_fixed.py`: enrich each
record, drop expired ones, and stably sort by
`(days_left, -discount_value)`. -/
def enrich_promo_data (now : NowT) (promos : List Dict) : List Dict :=
  (promos.filterMap (enrichOne now)).mergeSort leKey

/-! ## `parse_email` / `extract_promos_from_emails`
(gmail_agent_improved.py, lines 287–332 and 335–394)

A Gmail API message is a nested dict; absent keys become `Option`/empty
defaults.  Base64+UTF-8 decoding is a library call modelled as an
abstract total-or-failing function `dec` (`none` = the exception the
source's `try/except` catches). -/

/-- One entry of `payload["headers"]`. -/
structure MsgHeader where
  name : String
  value : String
deriving DecidableEq, Repr

/-- One entry of `payload["parts"]`; `data` is
`part.get("body", {}).get("data")`. -/
structure MsgPart where
  mimeType : String
  data : Option String
deriving DecidableEq, Repr

/-- `msg["payload"]`; `bodyData` is `payload["body"]["data"]` when both
keys are present. -/
structure GPayload where
  headers : List MsgHeader
  parts : List MsgPart
  bodyData : Option String
deriving DecidableEq, Repr

/-- A fetched Gmail message; `payload = none` models a record without a
`"payload"` key (where `msg["payload"]` raises `KeyError`). -/
structure GMsg where
  payload : Option GPayload
deriving DecidableEq, Repr

/-- The header scan of `parse_email`: the last header whose name
lower-cases to `target` wins. -/
def headerValue (target : String) (headers : List MsgHeader) : String :=
  headers.foldl (fun acc h => if lowerStr h.name = target then h.value else acc) ""

/-- `parse_email` from `gmail_agent_improved.py`: returns
`(body_text, subject, sender)`; every exception path (missing payload,
failed decode) is caught and yields `("", "", "")`. -/
def parse_email (dec : String → Option String) (msg : GMsg) : String × String × String :=
  match msg.payload with
  | none => ("", "", "")
  | some pl =>
    let subject := headerValue "subject" pl.headers
    let sender := headerValue "from" pl.headers
    let fromParts : Option String :=
      match pl.parts.find? (fun part => part.mimeType == "text/plain" && part.data.getD "" != "") with
      | some part => dec (part.data.getD "")
      | none => some ""
    match fromParts with
    | none => ("", "", "")
    | some bt =>
      if bt = "" then
        match pl.bodyData with
        | some d =>
          match dec d with
          | none => ("", "", "")
          | some t => (t, subject, sender)
        | none => (bt, subject, sender)
      else (bt, subject, sender)

/-- `extract_promos_from_emails` from `gmail_agent_improved.py`, with the
`promo_parser` extraction and categorization steps as abstract total
functions `f` and `g` (the module is external to this file's sources):
messages whose parsed body is empty are skipped, the rest contribute
their categorized candidates in order. -/
def extract_promos_from_emails (dec : String → Option String)
    (f : String → String → String → List Dict) (g : Dict → Dict)
    (emails : List GMsg) : List Dict :=
  emails.foldl (fun acc msg =>
    let r := parse_email dec msg
    if r.1 = "" then acc else acc ++ (f r.1 r.2.1 r.2.2).map g) []

/-! ## The Deduplicator -/

/-- An offer candidate as deduplication sees it; an empty string encodes
an absent code/merchant/expiration. -/
structure Cand where
  code : String
  merchant : String
  discount : String
  expirationText : String
  category : String
deriving DecidableEq, Repr

/-- Modelled from the spec: `promo_parser.py` (the module defining
`deduplicate_promos`) is not among the source files; §4.4 prescribes a
grouping keyed by the normalized non-empty code, or by the normalized
merchant+discount pair for candidates without a code. -/
def dupKey (c : Cand) : Sum String (String × String) :=
  if c.code ≠ "" then .inl (lowerStr c.code)
  else .inr (lowerStr c.merchant, lowerStr c.discount)

/-- Modelled from the spec: the §4.4 equivalence rule — duplicates iff
same non-empty code (case-insensitive), or same merchant and discount
(case-insensitive) with both codes absent. -/
def dupRel (a b : Cand) : Prop :=
  (a.code ≠ "" ∧ b.code ≠ "" ∧ lowerStr a.code = lowerStr b.code) ∨
  (a.code = "" ∧ b.code = "" ∧ lowerStr a.merchant = lowerStr b.merchant ∧
    lowerStr a.discount = lowerStr b.discount)

instance (a b : Cand) : Decidable (dupRel a b) := by
  unfold dupRel
  infer_instance

/-- Modelled from the spec: the §4.4 merge of two duplicates — keep the
code from whichever has one, the non-empty merchant, the earliest
expiration text, and the earliest record's remaining fields. -/
def mergeC (a b : Cand) : Cand :=
  { code := if a.code ≠ "" then a.code else b.code
    merchant := if a.merchant ≠ "" then a.merchant else b.merchant
    discount := a.discount
    expirationText := if a.expirationText ≠ "" then a.expirationText else b.expirationText
    category := a.category }

/-- Insert one candidate into the accumulated groups: merge into the
existing group with the same key, else append a new group. -/
def insertCand (acc : List Cand) (c : Cand) : List Cand :=
  match acc with
  | [] => [c]
  | a :: rest => if dupKey a = dupKey c then mergeC a c :: rest else a :: insertCand rest c

/-- Modelled from the spec: `deduplicate_promos` — collapse the batch by
grouping on `dupKey`, preserving first-appearance order of the groups. -/
def deduplicate_promos (batch : List Cand) : List Cand :=
  batch.foldl insertCand []

/-! ## Urgency-tier ordering -/

/-- The position of an urgency class in the fixed tier ordering
Expired < Critical < High < Medium < Low < Unknown. -/
def tierRank (c : String) : Nat :=
  if c = "urgency-expired" then 0
  else if c = "urgency-critical" then 1
  else if c = "urgency-high" then 2
  else if c = "urgency-medium" then 3
  else if c = "urgency-low" then 4
  else 5

/-! ## Helper lemmas for the discount score -/

theorem pdv_of_pct {s : String} {n : Nat} (h : pctSearch s.data = some n) :
    parse_discount_value s = n := by
  unfold parse_discount_value
  rcases eq_or_ne s "" with rfl | hs
  · have hnone : pctSearch ("" : String).data = none := by decide
    rw [hnone] at h; cases h
  rcases eq_or_ne s "Check email for details" with rfl | hc
  · have hnone : pctSearch ("Check email for details" : String).data = none := by decide
    rw [hnone] at h; cases h
  rw [if_neg (by tauto), h]

theorem pdv_of_dollar {s : String} {n : Nat} (hp : pctSearch s.data = none)
    (h : dollarSearch s.data = some n) : parse_discount_value s = 2 * n := by
  unfold parse_discount_value
  rcases eq_or_ne s "" with rfl | hs
  · have hnone : dollarSearch ("" : String).data = none := by decide
    rw [hnone] at h; cases h
  rcases eq_or_ne s "Check email for details" with rfl | hc
  · have hnone : dollarSearch ("Check email for details" : String).data = none := by decide
    rw [hnone] at h; cases h
  rw [if_neg (by tauto), hp, h]

theorem pdv_of_free {s : String} (hp : pctSearch s.data = none)
    (hd : dollarSearch s.data = none)
    (h : (containsSub "free".data (lowerStr s).data ||
      containsSub "bogo".data (lowerStr s).data) = true) :
    parse_discount_value s = 50 := by
  unfold parse_discount_value
  rcases eq_or_ne s "" with rfl | hs
  · exact absurd h (by decide)
  rcases eq_or_ne s "Check email for details" with rfl | hc
  · exact absurd h (by decide)
  rw [if_neg (by tauto), hp, hd, if_pos h]

theorem pdv_of_unrecognized {s : String} (hp : pctSearch s.data = none)
    (hd : dollarSearch s.data = none)
    (h : (containsSub "free".data (lowerStr s).data ||
      containsSub "bogo".data (lowerStr s).data) = false) :
    parse_discount_value s = 0 := by
  unfold parse_discount_value
  rcases eq_or_ne s "" with rfl | hs
  · simp
  rcases eq_or_ne s "Check email for details" with rfl | hc
  · simp
  rw [if_neg (by tauto), hp, hd, if_neg (by simp [h])]

/-- C1: the discount score is computed family by family — the numeric
percentage for a percentage match, twice the numeric dollar amount for a
dollar match, the constant 50 for a phrase containing "free" or "BOGO"
(case-insensitively), and 0 for anything unrecognized; in particular
"$50 off" scores 100 and "25% off" scores 25. -/
theorem C1_discount_score :
    (∀ (s : String) (n : Nat), pctSearch s.data = some n →
      parse_discount_value s = n) ∧
    (∀ (s : String) (n : Nat), pctSearch s.data = none →
      dollarSearch s.data = some n → parse_discount_value s = 2 * n) ∧
    (∀ s : String, pctSearch s.data = none → dollarSearch s.data = none →
      (containsSub "free".data (lowerStr s).data ||
        containsSub "bogo".data (lowerStr s).data) = true →
      parse_discount_value s = 50) ∧
    (∀ s : String, pctSearch s.data = none → dollarSearch s.data = none →
      (containsSub "free".data (lowerStr s).data ||
        containsSub "bogo".data (lowerStr s).data) = false →
      parse_discount_value s = 0) ∧
    parse_discount_value "$50 off" = 100 ∧ parse_discount_value "25% off" = 25 :=
  ⟨fun _ _ h => pdv_of_pct h, fun _ _ hp h => pdv_of_dollar hp h,
   fun _ hp hd h => pdv_of_free hp hd h, fun _ hp hd h => pdv_of_unrecognized hp hd h,
   by decide, by decide⟩

/-- Witness for C1 at concrete inputs. -/
theorem C1_discount_score_witness :
    parse_discount_value "40% off" = 40 ∧ parse_discount_value "$20 off" = 2 * 20 ∧
    parse_discount_value "Buy one get one FREE" = 50 ∧
    parse_discount_value "mystery deal" = 0 :=
  ⟨C1_discount_score.1 "40% off" 40 (by decide),
   C1_discount_score.2.1 "$20 off" 20 (by decide) (by decide),
   C1_discount_score.2.2.1 "Buy one get one FREE" (by decide) (by decide) (by decide),
   C1_discount_score.2.2.2.1 "mystery deal" (by decide) (by decide) (by decide)⟩

/-- C9: when a discount string matches both the percentage pattern and
the dollar pattern, the percentage family is checked first and wins,
whatever the two numeric values are. -/
theorem C9_percentage_precedence (s : String) (n m : Nat)
    (hp : pctSearch s.data = some n) (_hd : dollarSearch s.data = some m) :
    parse_discount_value s = n :=
  pdv_of_pct hp

/-- Witness for C9: "25% off or $40 off" scores 25 even though
2 × 40 > 25. -/
theorem C9_percentage_precedence_witness :
    parse_discount_value "25% off or $40 off" = 25 ∧ 25 < 2 * 40 :=
  ⟨C9_percentage_precedence "25% off or $40 off" 25 40 (by decide) (by decide),
   by decide⟩

/-- C2: the urgency tier is a function of `days_left` alone, decided by
the first matching rule: unknown ↦ Unknown, negative ↦ Expired,
0 ↦ Critical "Today", 1 ↦ Critical "Tomorrow", 2–3 ↦ High,
4–7 ↦ Medium, above 7 ↦ Low. -/
theorem C2_urgency_tiers :
    (∀ (now : NowT) (exp : Option DateT),
      get_urgency_level now exp = urgencyOf (exp.map (daysLeftOf now))) ∧
    urgencyOf none = ("Unknown", "urgency-unknown", none) ∧
    (∀ d : Int, d < 0 → urgencyOf (some d) = ("Expired", "urgency-expired", some d)) ∧
    urgencyOf (some 0) = ("Today", "urgency-critical", some 0) ∧
    urgencyOf (some 1) = ("Tomorrow", "urgency-critical", some 1) ∧
    (∀ d : Int, 2 ≤ d → d ≤ 3 →
      urgencyOf (some d) = (toString d ++ " days", "urgency-high", some d)) ∧
    (∀ d : Int, 4 ≤ d → d ≤ 7 →
      urgencyOf (some d) = (toString d ++ " days", "urgency-medium", some d)) ∧
    (∀ d : Int, 7 < d →
      urgencyOf (some d) = (toString d ++ " days", "urgency-low", some d)) := by
  refine ⟨fun _ _ => rfl, rfl, ?_, by decide, by decide, ?_, ?_, ?_⟩ <;>
    · intro d
      intros
      simp only [urgencyOf]
      split_ifs <;> first | rfl | omega

/-- Witness for C2 at concrete inputs. -/
theorem C2_urgency_tiers_witness :
    urgencyOf (some (-3)) = ("Expired", "urgency-expired", some (-3)) ∧
    urgencyOf (some 2) = ("2 days", "urgency-high", some 2) ∧
    urgencyOf (some 6) = ("6 days", "urgency-medium", some 6) ∧
    urgencyOf (some 999) = ("999 days", "urgency-low", some 999) :=
  ⟨C2_urgency_tiers.2.2.1 (-3) (by decide),
   C2_urgency_tiers.2.2.2.2.2.1 2 (by decide) (by decide),
   C2_urgency_tiers.2.2.2.2.2.2.1 6 (by decide) (by decide),
   C2_urgency_tiers.2.2.2.2.2.2.2 999 (by decide)⟩

/-- C6: urgency is monotone in known `days_left` — a smaller days-left
value never gets a less urgent tier, under
Expired < Critical < High < Medium < Low. -/
theorem C6_urgency_monotone (d₁ d₂ : Int) (h : d₁ ≤ d₂) :
    tierRank (urgencyOf (some d₁)).2.1 ≤ tierRank (urgencyOf (some d₂)).2.1 := by
  simp only [urgencyOf]
  split_ifs <;> simp [tierRank] <;> omega

/-- Witness for C6 at a concrete pair. -/
theorem C6_urgency_monotone_witness :
    tierRank (urgencyOf (some 1)).2.1 ≤ tierRank (urgencyOf (some 5)).2.1 :=
  C6_urgency_monotone 1 5 (by decide)

/-! ## Dict-lookup lemmas for the enriched records -/

theorem find?_filter_keys (base upd : Dict) (k : String)
    (h : upd.any (fun uv => uv.1 == k) = false) :
    (base.filter (fun kv => !(upd.any (fun uv => uv.1 == kv.1)))).find? (fun kv => kv.1 == k)
      = base.find? (fun kv => kv.1 == k) := by
  induction base with
  | nil => rfl
  | cons kv rest ih =>
    by_cases hk : kv.1 == k
    · have hkk : kv.1 = k := by simpa using hk
      have hpred : (upd.any (fun uv => uv.1 == kv.1)) = false := by rw [hkk]; exact h
      simp [List.filter_cons, List.find?_cons, hpred, hk]
    · by_cases hp : upd.any (fun uv => uv.1 == kv.1)
      · simp [List.filter_cons, List.find?_cons, hp, hk, ih]
      · simp only [Bool.not_eq_true] at hp
        simp [List.filter_cons, List.find?_cons, hp, hk, ih]

/-- Looking up a key the update does not mention reads the base dict. -/
theorem dget_updateDict_not_mem (base upd : Dict) (k : String)
    (h : upd.any (fun uv => uv.1 == k) = false) :
    dget (updateDict base upd) k = dget base k := by
  unfold updateDict dget
  rw [List.find?_append]
  have hupd : upd.find? (fun kv => kv.1 == k) = none := by
    rw [List.find?_eq_none]
    intro x hx hxk
    have hany : upd.any (fun uv => uv.1 == k) = true := List.any_eq_true.mpr ⟨x, hx, hxk⟩
    rw [h] at hany; cases hany
  rw [find?_filter_keys base upd k h, hupd]
  cases base.find? (fun kv => kv.1 == k) <;> rfl

/-- Looking up a key the update mentions reads the update. -/
theorem dget_updateDict_mem (base upd : Dict) (k : String)
    (h : upd.any (fun uv => uv.1 == k) = true) :
    dget (updateDict base upd) k = dget upd k := by
  unfold updateDict dget
  rw [List.find?_append]
  have hfil : (base.filter (fun kv => !(upd.any (fun uv => uv.1 == kv.1)))).find?
      (fun kv => kv.1 == k) = none := by
    rw [List.find?_eq_none]
    intro x hx hxk
    have hxmem := List.mem_filter.mp hx
    have hxk' : x.1 = k := by simpa using hxk
    rw [Bool.not_eq_true', hxk'] at hxmem
    rw [h] at hxmem
    exact absurd hxmem.2 (by simp)
  rw [hfil]
  rfl

theorem dget_enrichFields_days (p : Dict) (exp : Option DateT) (ut uc : String) (dl : Int) :
    dget (enrichFields p exp ut uc dl) "days_left" = some (.vint dl) := rfl

theorem dget_enrichFields_uclass (p : Dict) (exp : Option DateT) (ut uc : String) (dl : Int) :
    dget (enrichFields p exp ut uc dl) "urgency_class" = some (.vstr uc) := rfl

theorem dget_enrichFields_utext (p : Dict) (exp : Option DateT) (ut uc : String) (dl : Int) :
    dget (enrichFields p exp ut uc dl) "urgency_text" = some (.vstr ut) := rfl

/-- The computed entries never mention a key outside `computedKeys`. -/
theorem enrichFields_any_eq_false (p : Dict) (exp : Option DateT) (ut uc : String) (dl : Int)
    (k : String) (hk : k ∉ computedKeys) :
    ((enrichFields p exp ut uc dl).any (fun uv => uv.1 == k)) = false := by
  rw [List.any_eq_false]
  intro x hx hcon
  refine absurd ?_ hk
  have hx1 : x.1 = k := eq_of_beq hcon
  rw [← hx1]
  simp only [enrichFields, List.mem_cons, List.not_mem_nil, or_false] at hx
  rcases hx with rfl|rfl|rfl|rfl|rfl|rfl|rfl|rfl <;> simp [computedKeys]

theorem getIntD_of_dget_vint {r : Dict} {k : String} {d : Int}
    (h : dget r k = some (.vint d)) : getIntD r k = d := by
  unfold getIntD
  rw [h]

/-- Every record `enrichOne` emits is the input dict updated with the
computed fields, for a non-negative `days_left` value that is either the
known days-left or the 999 sentinel. -/
theorem enrichOne_cases (now : NowT) (p r : Dict) (h : enrichOne now p = some r) :
    ∃ dl : Int, 0 ≤ dl ∧
      r = updateDict p (enrichFields p (parse_expiration (dget p "expiration"))
            (get_urgency_level now (parse_expiration (dget p "expiration"))).1
            (get_urgency_level now (parse_expiration (dget p "expiration"))).2.1 dl) ∧
      ((get_urgency_level now (parse_expiration (dget p "expiration"))).2.2 = some dl ∨
       ((get_urgency_level now (parse_expiration (dget p "expiration"))).2.2 = none ∧ dl = 999)) := by
  simp only [enrichOne] at h
  rcases hu : (get_urgency_level now (parse_expiration (dget p "expiration"))).2.2 with _ | d
  · rw [hu] at h
    dsimp only at h
    exact ⟨999, by norm_num, (Option.some.inj h).symm, Or.inr ⟨rfl, rfl⟩⟩
  · rw [hu] at h
    dsimp only at h
    by_cases hd : d < 0
    · rw [if_pos hd] at h; cases h
    · rw [if_neg hd] at h
      exact ⟨d, by omega, (Option.some.inj h).symm, Or.inl rfl⟩

/-- C3: the enricher itself filters: no record of the enriched output
carries a negative `days_left`, and a record whose known days-left is
negative is dropped from the output by the enrichment loop. -/
theorem C3_no_expired_in_output :
    (∀ (now : NowT) (promos : List Dict) (r : Dict),
        okBatch promos = true →
        r ∈ enrich_promo_data now promos →
        dget r "days_left" = some (.vint (getIntD r "days_left")) ∧
          0 ≤ getIntD r "days_left") ∧
    (∀ (now : NowT) (p : Dict) (rest : List Dict) (d : Int),
        (get_urgency_level now (parse_expiration (dget p "expiration"))).2.2 = some d →
        d < 0 →
        enrich_promo_data now (p :: rest) = enrich_promo_data now rest) := by
  constructor
  · intro now promos r _ hr
    have hr' : r ∈ (promos.filterMap (enrichOne now)) :=
      ((List.mergeSort_perm _ _).mem_iff).mp hr
    obtain ⟨p, hp, hep⟩ := List.mem_filterMap.mp hr'
    obtain ⟨dl, hdl, rfl, _⟩ := enrichOne_cases now p r hep
    have hget : dget (updateDict p (enrichFields p (parse_expiration (dget p "expiration"))
        (get_urgency_level now (parse_expiration (dget p "expiration"))).1
        (get_urgency_level now (parse_expiration (dget p "expiration"))).2.1 dl))
        "days_left" = some (.vint dl) := by
      rw [dget_updateDict_mem _ _ _ (by rfl)]
      exact dget_enrichFields_days ..
    rw [hget, getIntD_of_dget_vint hget]
    exact ⟨rfl, hdl⟩
  · intro now p rest d hu hd
    unfold enrich_promo_data
    have hnone : enrichOne now p = none := by
      simp only [enrichOne]
      rw [hu]
      dsimp only
      rw [if_pos hd]
    rw [List.filterMap_cons_none hnone]

/-- Witness for C3: a record with no expiration survives with
`days_left = 999 ≥ 0`, and a record one day past expiration is dropped. -/
theorem C3_no_expired_in_output_witness :
    (dget [(("expiration_date" : String), PVal.vdate none),
        ("urgency_text", .vstr "Unknown"), ("urgency_class", .vstr "urgency-unknown"),
        ("days_left", .vint 999), ("discount_value", .vnat 0),
        ("display_expiration", .vstr "No expiration"),
        ("display_discount", .vstr "See email for details"),
        ("display_merchant", .vstr "Unknown Merchant")] "days_left" =
      some (.vint (getIntD [(("expiration_date" : String), PVal.vdate none),
        ("urgency_text", .vstr "Unknown"), ("urgency_class", .vstr "urgency-unknown"),
        ("days_left", .vint 999), ("discount_value", .vnat 0),
        ("display_expiration", .vstr "No expiration"),
        ("display_discount", .vstr "See email for details"),
        ("display_merchant", .vstr "Unknown Merchant")] "days_left")) ∧
      0 ≤ getIntD [(("expiration_date" : String), PVal.vdate none),
        ("urgency_text", .vstr "Unknown"), ("urgency_class", .vstr "urgency-unknown"),
        ("days_left", .vint 999), ("discount_value", .vnat 0),
        ("display_expiration", .vstr "No expiration"),
        ("display_discount", .vstr "See email for details"),
        ("display_merchant", .vstr "Unknown Merchant")] "days_left") ∧
    enrich_promo_data ⟨20373, 41417⟩
        ([(("expiration" : String), PVal.vstr "October 12, 2025")] :: []) =
      enrich_promo_data ⟨20373, 41417⟩ [] :=
  ⟨C3_no_expired_in_output.1 ⟨0, 0⟩ [[]] _ (by decide)
     (((List.mergeSort_perm _ _).mem_iff).mpr (by decide)),
   C3_no_expired_in_output.2 ⟨20373, 41417⟩
     [(("expiration" : String), PVal.vstr "October 12, 2025")] [] (-1)
     (by decide) (by decide)⟩

theorem leKey_trans : ∀ a b c : Dict, leKey a b = true → leKey b c = true → leKey a c = true := by
  intro a b c h1 h2
  simp only [leKey, Bool.or_eq_true, Bool.and_eq_true, decide_eq_true_eq] at *
  omega

theorem leKey_total : ∀ a b : Dict, (leKey a b || leKey b a) = true := by
  intro a b
  simp only [leKey, Bool.or_eq_true, Bool.and_eq_true, decide_eq_true_eq]
  omega

/-- C4: the enriched output is sorted ascending by `days_left` with
descending `discount_value` breaking ties, and a record with an
unparseable expiration gets the very large sentinel 999 as its
`days_left` sort key. -/
theorem C4_output_sorted :
    (∀ (now : NowT) (promos : List Dict), okBatch promos = true →
       List.Pairwise (fun a b =>
         getIntD a "days_left" < getIntD b "days_left" ∨
         (getIntD a "days_left" = getIntD b "days_left" ∧
           getIntD b "discount_value" ≤ getIntD a "discount_value"))
         (enrich_promo_data now promos)) ∧
    (∀ (now : NowT) (p : Dict), parse_expiration (dget p "expiration") = none →
       (enrichOne now p).isSome = true ∧
         dget ((enrichOne now p).getD []) "days_left" = some (.vint 999)) := by
  constructor
  · intro now promos _
    have hs := List.sorted_mergeSort leKey_trans leKey_total (promos.filterMap (enrichOne now))
    refine List.Pairwise.imp ?_ hs
    intro a b hab
    simp only [leKey, Bool.or_eq_true, Bool.and_eq_true, decide_eq_true_eq] at hab
    omega
  · intro now p hexp
    have hu : (get_urgency_level now (parse_expiration (dget p "expiration"))).2.2 = none := by
      rw [hexp]; rfl
    have henr : enrichOne now p = some (updateDict p
        (enrichFields p (parse_expiration (dget p "expiration"))
          (get_urgency_level now (parse_expiration (dget p "expiration"))).1
          (get_urgency_level now (parse_expiration (dget p "expiration"))).2.1 999)) := by
      simp only [enrichOne]
      rw [hu]
    rw [henr]
    refine ⟨rfl, ?_⟩
    rw [Option.getD_some, dget_updateDict_mem _ _ _ (by rfl)]
    exact dget_enrichFields_days ..

/-- Witness for C4 at a concrete two-record batch. -/
theorem C4_output_sorted_witness :
    List.Pairwise (fun a b =>
        getIntD a "days_left" < getIntD b "days_left" ∨
        (getIntD a "days_left" = getIntD b "days_left" ∧
          getIntD b "discount_value" ≤ getIntD a "discount_value"))
      (enrich_promo_data ⟨20373, 41417⟩
        [[(("expiration" : String), PVal.vstr "October 20, 2025"),
          ("discount", .vstr "40% off")],
         [(("expiration" : String), PVal.vstr "October 18, 2025"),
          ("discount", .vstr "$50 off")]]) ∧
    (enrichOne ⟨20373, 41417⟩ [(("expiration" : String), PVal.vstr "sometime soon")]).isSome
        = true ∧
      dget ((enrichOne ⟨20373, 41417⟩
          [(("expiration" : String), PVal.vstr "sometime soon")]).getD [])
        "days_left" = some (.vint 999) :=
  ⟨C4_output_sorted.1 ⟨20373, 41417⟩ _ (by decide),
   C4_output_sorted.2 ⟨20373, 41417⟩
     [(("expiration" : String), PVal.vstr "sometime soon")] (by decide)⟩

theorem firstSome_cons_some {f : List Char → Option DateT} {fs : List (List Char → Option DateT)}
    {s : List Char} {d : DateT} (h : f s = some d) : firstSome (f :: fs) s = some d := by
  simp only [firstSome]
  rw [h]

theorem firstSome_cons_none {f : List Char → Option DateT} {fs : List (List Char → Option DateT)}
    {s : List Char} (h : f s = none) : firstSome (f :: fs) s = firstSome fs s := by
  simp only [firstSome]
  rw [h]

/-- C5: expiration parsing is total and tries the four formats in their
fixed order, the first success winning; absent, empty, `None` and
unparseable inputs all degrade to the `datetime.max` sentinel, and a
record with an unparseable expiration is still enriched and appears in
the output as tier Unknown, not as expired. -/
theorem C5_expiration_parsing_total :
    parse_expiration none = none ∧
    parse_expiration (some .vnone) = none ∧
    parse_expiration (some (.vstr "")) = none ∧
    parse_expiration (some (.vstr "sometime soon")) = none ∧
    (∀ (s : String) (d : DateT), tryFullMonth s.data = some d →
      parse_expiration (some (.vstr s)) = some d) ∧
    (∀ (s : String) (d : DateT), tryFullMonth s.data = none → tryAbbrMonth s.data = some d →
      parse_expiration (some (.vstr s)) = some d) ∧
    (∀ (s : String) (d : DateT), tryFullMonth s.data = none → tryAbbrMonth s.data = none →
      trySlash4 s.data = some d → parse_expiration (some (.vstr s)) = some d) ∧
    (∀ (s : String) (d : DateT), tryFullMonth s.data = none → tryAbbrMonth s.data = none →
      trySlash4 s.data = none → trySlash2 s.data = some d →
      parse_expiration (some (.vstr s)) = some d) ∧
    (∀ s : String, tryFullMonth s.data = none → tryAbbrMonth s.data = none →
      trySlash4 s.data = none → trySlash2 s.data = none →
      parse_expiration (some (.vstr s)) = none) ∧
    (∀ (now : NowT) (p : Dict) (pre post : List Dict), okPromo p = true →
      parse_expiration (dget p "expiration") = none →
      (enrichOne now p).isSome = true ∧
        ((enrichOne now p).getD []) ∈ enrich_promo_data now (pre ++ p :: post) ∧
        dget ((enrichOne now p).getD []) "urgency_text" = some (.vstr "Unknown") ∧
        dget ((enrichOne now p).getD []) "urgency_class" = some (.vstr "urgency-unknown") ∧
        dget ((enrichOne now p).getD []) "days_left" = some (.vint 999)) := by
  refine ⟨rfl, rfl, by decide, by decide, ?_, ?_, ?_, ?_, ?_, ?_⟩
  · intro s d h
    have hs : s ≠ "" := by
      rintro rfl
      have hemp : tryFullMonth ("" : String).data = none := by decide
      rw [hemp] at h
      cases h
    simp only [parse_expiration]
    rw [if_neg hs, fmtChain, firstSome_cons_some h]
  · intro s d h1 h2
    have hs : s ≠ "" := by
      rintro rfl
      have hemp : tryAbbrMonth ("" : String).data = none := by decide
      rw [hemp] at h2
      cases h2
    simp only [parse_expiration]
    rw [if_neg hs, fmtChain, firstSome_cons_none h1, firstSome_cons_some h2]
  · intro s d h1 h2 h3
    have hs : s ≠ "" := by
      rintro rfl
      have hemp : trySlash4 ("" : String).data = none := by decide
      rw [hemp] at h3
      cases h3
    simp only [parse_expiration]
    rw [if_neg hs, fmtChain, firstSome_cons_none h1, firstSome_cons_none h2,
      firstSome_cons_some h3]
  · intro s d h1 h2 h3 h4
    have hs : s ≠ "" := by
      rintro rfl
      have hemp : trySlash2 ("" : String).data = none := by decide
      rw [hemp] at h4
      cases h4
    simp only [parse_expiration]
    rw [if_neg hs, fmtChain, firstSome_cons_none h1, firstSome_cons_none h2,
      firstSome_cons_none h3, firstSome_cons_some h4]
  · intro s h1 h2 h3 h4
    rcases eq_or_ne s "" with rfl | hs
    · rfl
    simp only [parse_expiration]
    rw [if_neg hs, fmtChain, firstSome_cons_none h1, firstSome_cons_none h2,
      firstSome_cons_none h3, firstSome_cons_none h4]
    rfl
  · intro now p pre post _ hexp
    have hu : (get_urgency_level now (parse_expiration (dget p "expiration"))).2.2 = none := by
      rw [hexp]; rfl
    have henr : enrichOne now p = some (updateDict p
        (enrichFields p (parse_expiration (dget p "expiration"))
          (get_urgency_level now (parse_expiration (dget p "expiration"))).1
          (get_urgency_level now (parse_expiration (dget p "expiration"))).2.1 999)) := by
      simp only [enrichOne]
      rw [hu]
    rw [henr]
    refine ⟨rfl, ?_, ?_, ?_, ?_⟩
    · rw [Option.getD_some]
      exact ((List.mergeSort_perm _ _).mem_iff).mpr
        (List.mem_filterMap.mpr ⟨p, by simp, henr⟩)
    · rw [Option.getD_some, dget_updateDict_mem _ _ _ (by rfl), dget_enrichFields_utext, hexp]
      rfl
    · rw [Option.getD_some, dget_updateDict_mem _ _ _ (by rfl), dget_enrichFields_uclass, hexp]
      rfl
    · rw [Option.getD_some, dget_updateDict_mem _ _ _ (by rfl)]
      exact dget_enrichFields_days ..

/-- Witness for C5: each format clause at a concrete date string, and a
record with expiration "sometime soon" still lands in the output. -/
theorem C5_expiration_parsing_total_witness :
    parse_expiration (some (.vstr "October 20, 2025")) = some ⟨2025, 10, 20⟩ ∧
    parse_expiration (some (.vstr "Oct 20, 2025")) = some ⟨2025, 10, 20⟩ ∧
    parse_expiration (some (.vstr "10/20/2025")) = some ⟨2025, 10, 20⟩ ∧
    parse_expiration (some (.vstr "10/20/25")) = some ⟨2025, 10, 20⟩ ∧
    parse_expiration (some (.vstr "next week")) = none ∧
    ((enrichOne ⟨20373, 41417⟩
        [(("expiration" : String), PVal.vstr "sometime soon")]).isSome = true ∧
      ((enrichOne ⟨20373, 41417⟩
          [(("expiration" : String), PVal.vstr "sometime soon")]).getD []) ∈
        enrich_promo_data ⟨20373, 41417⟩
          ([] ++ [(("expiration" : String), PVal.vstr "sometime soon")] :: []) ∧
      dget ((enrichOne ⟨20373, 41417⟩
          [(("expiration" : String), PVal.vstr "sometime soon")]).getD [])
        "urgency_text" = some (.vstr "Unknown") ∧
      dget ((enrichOne ⟨20373, 41417⟩
          [(("expiration" : String), PVal.vstr "sometime soon")]).getD [])
        "urgency_class" = some (.vstr "urgency-unknown") ∧
      dget ((enrichOne ⟨20373, 41417⟩
          [(("expiration" : String), PVal.vstr "sometime soon")]).getD [])
        "days_left" = some (.vint 999)) :=
  ⟨C5_expiration_parsing_total.2.2.2.2.1 "October 20, 2025" ⟨2025, 10, 20⟩ (by decide),
   C5_expiration_parsing_total.2.2.2.2.2.1 "Oct 20, 2025" ⟨2025, 10, 20⟩
     (by decide) (by decide),
   C5_expiration_parsing_total.2.2.2.2.2.2.1 "10/20/2025" ⟨2025, 10, 20⟩
     (by decide) (by decide) (by decide),
   C5_expiration_parsing_total.2.2.2.2.2.2.2.1 "10/20/25" ⟨2025, 10, 20⟩
     (by decide) (by decide) (by decide) (by decide),
   C5_expiration_parsing_total.2.2.2.2.2.2.2.2.1 "next week"
     (by decide) (by decide) (by decide) (by decide),
   C5_expiration_parsing_total.2.2.2.2.2.2.2.2.2 ⟨20373, 41417⟩
     [(("expiration" : String), PVal.vstr "sometime soon")] [] []
     (by decide) (by decide)⟩

/-- C10: enrichment is a frame extension — for a surviving record, every
original key whose name is not among the computed keys keeps its exact
value in the enriched dict, and the enriched dict reaches the output. -/
theorem C10_enrichment_frame :
    ∀ (now : NowT) (p r : Dict) (k : String) (v : PVal),
      okPromo p = true →
      enrichOne now p = some r →
      k ∉ computedKeys →
      dget p k = some v →
      dget r k = some v ∧
        ∀ promos : List Dict, p ∈ promos → r ∈ enrich_promo_data now promos := by
  intro now p r k v _ h hk hv
  obtain ⟨dl, _, rfl, _⟩ := enrichOne_cases now p r h
  constructor
  · rw [dget_updateDict_not_mem _ _ _ (enrichFields_any_eq_false _ _ _ _ _ _ hk)]
    exact hv
  · intro promos hp
    exact ((List.mergeSort_perm _ _).mem_iff).mpr (List.mem_filterMap.mpr ⟨p, hp, h⟩)

/-- Witness for C10: the original `code` entry survives enrichment
unchanged and the record reaches the output. -/
theorem C10_enrichment_frame_witness :
    dget [(("code" : String), PVal.vstr "FLIGHT40"),
      ("expiration_date", .vdate none),
      ("urgency_text", .vstr "Unknown"), ("urgency_class", .vstr "urgency-unknown"),
      ("days_left", .vint 999), ("discount_value", .vnat 0),
      ("display_expiration", .vstr "No expiration"),
      ("display_discount", .vstr "See email for details"),
      ("display_merchant", .vstr "Unknown Merchant")] "code" = some (.vstr "FLIGHT40") ∧
    [(("code" : String), PVal.vstr "FLIGHT40"),
      ("expiration_date", .vdate none),
      ("urgency_text", .vstr "Unknown"), ("urgency_class", .vstr "urgency-unknown"),
      ("days_left", .vint 999), ("discount_value", .vnat 0),
      ("display_expiration", .vstr "No expiration"),
      ("display_discount", .vstr "See email for details"),
      ("display_merchant", .vstr "Unknown Merchant")] ∈
      enrich_promo_data ⟨0, 0⟩ [[(("code" : String), PVal.vstr "FLIGHT40")]] := by
  have h := C10_enrichment_frame ⟨0, 0⟩ [(("code" : String), PVal.vstr "FLIGHT40")]
    [(("code" : String), PVal.vstr "FLIGHT40"),
      ("expiration_date", .vdate none),
      ("urgency_text", .vstr "Unknown"), ("urgency_class", .vstr "urgency-unknown"),
      ("days_left", .vint 999), ("discount_value", .vnat 0),
      ("display_expiration", .vstr "No expiration"),
      ("display_discount", .vstr "See email for details"),
      ("display_merchant", .vstr "Unknown Merchant")] "code" (.vstr "FLIGHT40")
    (by decide) (by decide) (by decide) (by decide)
  exact ⟨h.1, h.2 [[(("code" : String), PVal.vstr "FLIGHT40")]] (by decide)⟩

/-! ## Deduplicator lemmas -/

/-- Merging two candidates with the same key keeps that key. -/
theorem dupKey_mergeC {a c : Cand} (h : dupKey a = dupKey c) : dupKey (mergeC a c) = dupKey a := by
  by_cases ha : a.code = ""
  · have hc : c.code = "" := by
      by_contra hc
      simp [dupKey, ha, hc] at h
    by_cases ham : a.merchant = ""
    · have hmm : lowerStr a.merchant = lowerStr c.merchant := by
        simp [dupKey, ha, hc, Prod.ext_iff] at h
        exact h.1
      have hmm2 : lowerStr c.merchant = lowerStr "" := by
        rw [← ham]
        exact hmm.symm
      simp [dupKey, mergeC, ha, hc, ham, hmm2]
    · simp [dupKey, mergeC, ha, hc, ham]
  · simp [dupKey, mergeC, ha]

theorem mem_keys_insertCand (acc : List Cand) (c : Cand) (k : Sum String (String × String)) :
    k ∈ (insertCand acc c).map dupKey ↔ k ∈ acc.map dupKey ∨ k = dupKey c := by
  induction acc with
  | nil => simp [insertCand]
  | cons a rest ih =>
    by_cases h : dupKey a = dupKey c
    · simp only [insertCand, if_pos h, List.map_cons, List.mem_cons, dupKey_mergeC h]
      constructor
      · rintro (rfl | hm)
        · exact Or.inl (Or.inl rfl)
        · exact Or.inl (Or.inr hm)
      · rintro ((rfl | hm) | rfl)
        · exact Or.inl rfl
        · exact Or.inr hm
        · exact Or.inl h.symm
    · simp only [insertCand, if_neg h, List.map_cons, List.mem_cons, ih]
      tauto

theorem nodup_keys_insertCand (acc : List Cand) (c : Cand)
    (h : (acc.map dupKey).Nodup) : ((insertCand acc c).map dupKey).Nodup := by
  induction acc with
  | nil => simp [insertCand]
  | cons a rest ih =>
    simp only [List.map_cons, List.nodup_cons] at h
    obtain ⟨hna, hnd⟩ := h
    by_cases hk : dupKey a = dupKey c
    · simp only [insertCand, if_pos hk, List.map_cons, List.nodup_cons, dupKey_mergeC hk]
      exact ⟨hna, hnd⟩
    · simp only [insertCand, if_neg hk, List.map_cons, List.nodup_cons]
      refine ⟨?_, ih hnd⟩
      intro hmem
      rw [mem_keys_insertCand] at hmem
      rcases hmem with hm | heq
      · exact hna hm
      · exact hk heq

theorem mem_keys_dedup_foldl (l : List Cand) :
    ∀ (acc : List Cand) (k : Sum String (String × String)),
    (k ∈ ((l.foldl insertCand acc).map dupKey) ↔ k ∈ acc.map dupKey ∨ k ∈ l.map dupKey) := by
  induction l with
  | nil => simp
  | cons c rest ih =>
    intro acc k
    simp only [List.foldl_cons, List.map_cons, List.mem_cons]
    rw [ih, mem_keys_insertCand]
    tauto

theorem nodup_keys_dedup_foldl (l : List Cand) : ∀ acc : List Cand,
    (acc.map dupKey).Nodup → ((l.foldl insertCand acc).map dupKey).Nodup := by
  induction l with
  | nil => intro acc h; exact h
  | cons c rest ih =>
    intro acc h
    simp only [List.foldl_cons]
    exact ih _ (nodup_keys_insertCand acc c h)

/-- The §4.4 duplicate relation is exactly "same grouping key". -/
theorem dupRel_iff_key (a b : Cand) : dupRel a b ↔ dupKey a = dupKey b := by
  unfold dupRel dupKey
  by_cases ha : a.code = "" <;> by_cases hb : b.code = "" <;>
    simp [ha, hb, Prod.ext_iff, and_assoc]

/-- C7: deduplication is order-independent — the duplicate relation is
symmetric and transitive (it coincides with equality of the normalized
code-or-merchant+discount key), each key survives exactly once, the
surviving key set is the input's key set, and permuting the input batch
permutes (hence preserves, as a set) the surviving keys. -/
theorem C7_dedup_order_independent :
    (∀ a b : Cand, dupRel a b → dupRel b a) ∧
    (∀ a b c : Cand, dupRel a b → dupRel b c → dupRel a c) ∧
    (∀ a b : Cand, dupRel a b ↔ dupKey a = dupKey b) ∧
    (∀ l : List Cand, ((deduplicate_promos l).map dupKey).Nodup) ∧
    (∀ l : List Cand, ∀ k, k ∈ (deduplicate_promos l).map dupKey ↔ k ∈ l.map dupKey) ∧
    (∀ l l' : List Cand, l.Perm l' →
      ((deduplicate_promos l).map dupKey).Perm ((deduplicate_promos l').map dupKey)) := by
  refine ⟨?_, ?_, dupRel_iff_key, ?_, ?_, ?_⟩
  · intro a b h
    rw [dupRel_iff_key] at *
    exact h.symm
  · intro a b c h1 h2
    rw [dupRel_iff_key] at *
    exact h1.trans h2
  · intro l
    exact nodup_keys_dedup_foldl l [] (by simp)
  · intro l k
    unfold deduplicate_promos
    rw [mem_keys_dedup_foldl]
    simp
  · intro l l' hp
    unfold deduplicate_promos
    rw [List.perm_ext_iff_of_nodup (nodup_keys_dedup_foldl l [] (by simp))
      (nodup_keys_dedup_foldl l' [] (by simp))]
    intro k
    rw [mem_keys_dedup_foldl, mem_keys_dedup_foldl]
    simp only [List.map_nil, List.not_mem_nil, false_or]
    constructor
    · intro hm
      obtain ⟨x, hx, rfl⟩ := List.mem_map.mp hm
      exact List.mem_map.mpr ⟨x, hp.mem_iff.mp hx, rfl⟩
    · intro hm
      obtain ⟨x, hx, rfl⟩ := List.mem_map.mp hm
      exact List.mem_map.mpr ⟨x, hp.mem_iff.mpr hx, rfl⟩

/-- Witness for C7 at concrete candidates and a concrete shuffle. -/
theorem C7_dedup_order_independent_witness :
    dupRel ⟨"save25", "nordstrom", "25% off", "Nov 1", "Retail"⟩
      ⟨"SAVE25", "Nordstrom", "25% off", "", "Retail"⟩ ∧
    dupRel ⟨"", "Target", "15% off", "", "Retail"⟩ ⟨"", "TARGET", "15% OFF", "x", "Other"⟩ ∧
    (dupRel ⟨"A1CD", "M", "d", "", "c"⟩ ⟨"a1cd", "N", "e", "", "c"⟩ ↔
      dupKey ⟨"A1CD", "M", "d", "", "c"⟩ = dupKey ⟨"a1cd", "N", "e", "", "c"⟩) ∧
    ((deduplicate_promos
        [⟨"SAVE25", "Nordstrom", "25% off", "", "Retail"⟩,
         ⟨"", "Target", "15% off", "", "Retail"⟩,
         ⟨"save25", "nordstrom", "25% off", "Nov 1", "Retail"⟩]).map dupKey).Nodup ∧
    ((deduplicate_promos
        [⟨"SAVE25", "Nordstrom", "25% off", "", "Retail"⟩,
         ⟨"", "Target", "15% off", "", "Retail"⟩,
         ⟨"save25", "nordstrom", "25% off", "Nov 1", "Retail"⟩]).map dupKey).Perm
      ((deduplicate_promos
        [⟨"save25", "nordstrom", "25% off", "Nov 1", "Retail"⟩,
         ⟨"SAVE25", "Nordstrom", "25% off", "", "Retail"⟩,
         ⟨"", "Target", "15% off", "", "Retail"⟩]).map dupKey) :=
  ⟨C7_dedup_order_independent.1 ⟨"SAVE25", "Nordstrom", "25% off", "", "Retail"⟩
     ⟨"save25", "nordstrom", "25% off", "Nov 1", "Retail"⟩ (by decide),
   C7_dedup_order_independent.2.1 ⟨"", "Target", "15% off", "", "Retail"⟩
     ⟨"", "target", "15% off", "y", "Food"⟩ ⟨"", "TARGET", "15% OFF", "x", "Other"⟩
     (by decide) (by decide),
   C7_dedup_order_independent.2.2.1 ⟨"A1CD", "M", "d", "", "c"⟩ ⟨"a1cd", "N", "e", "", "c"⟩,
   C7_dedup_order_independent.2.2.2.1
     [⟨"SAVE25", "Nordstrom", "25% off", "", "Retail"⟩,
      ⟨"", "Target", "15% off", "", "Retail"⟩,
      ⟨"save25", "nordstrom", "25% off", "Nov 1", "Retail"⟩],
   C7_dedup_order_independent.2.2.2.2.2
     [⟨"SAVE25", "Nordstrom", "25% off", "", "Retail"⟩,
      ⟨"", "Target", "15% off", "", "Retail"⟩,
      ⟨"save25", "nordstrom", "25% off", "Nov 1", "Retail"⟩]
     [⟨"save25", "nordstrom", "25% off", "Nov 1", "Retail"⟩,
      ⟨"SAVE25", "Nordstrom", "25% off", "", "Retail"⟩,
      ⟨"", "Target", "15% off", "", "Retail"⟩] (by decide)⟩

/-- C8: per-record email parsing is total — an unreadable payload or a
failing decode yields empty body, subject and sender instead of raising
— and a message whose parsed body is empty contributes nothing to the
extracted batch while the remaining messages are processed as before. -/
theorem C8_malformed_input_skipped :
    (∀ dec : String → Option String, parse_email dec ⟨none⟩ = ("", "", "")) ∧
    (∀ (dec : String → Option String) (pl : GPayload) (part : MsgPart),
      pl.parts.find? (fun q => q.mimeType == "text/plain" && q.data.getD "" != "") = some part →
      dec (part.data.getD "") = none →
      parse_email dec ⟨some pl⟩ = ("", "", "")) ∧
    (∀ (dec : String → Option String) (f : String → String → String → List Dict) (g : Dict → Dict)
        (pre post : List GMsg) (msg : GMsg),
      (parse_email dec msg).1 = "" →
      extract_promos_from_emails dec f g (pre ++ msg :: post) =
        extract_promos_from_emails dec f g (pre ++ post)) := by
  refine ⟨fun _ => rfl, ?_, ?_⟩
  · intro dec pl part hfind hdec
    simp only [parse_email, hfind, hdec]
  · intro dec f g pre post msg hbody
    unfold extract_promos_from_emails
    rw [List.foldl_append, List.foldl_append, List.foldl_cons]
    congr 1
    simp [hbody]

/-- Witness for C8: a message with an undecodable text part parses to
the empty triple, and skipping it leaves the batch unchanged. -/
theorem C8_malformed_input_skipped_witness :
    parse_email (fun _ => none) ⟨some ⟨[⟨"Subject", "Deal"⟩], [⟨"text/plain", some "!!"⟩], none⟩⟩
      = ("", "", "") ∧
    parse_email (fun _ => none) ⟨none⟩ = ("", "", "") ∧
    extract_promos_from_emails (fun _ => none) (fun _ _ _ => []) id ([] ++ ⟨none⟩ :: []) =
      extract_promos_from_emails (fun _ => none) (fun _ _ _ => []) id ([] ++ []) :=
  ⟨C8_malformed_input_skipped.2.1 (fun _ => none)
     ⟨[⟨"Subject", "Deal"⟩], [⟨"text/plain", some "!!"⟩], none⟩
     ⟨"text/plain", some "!!"⟩ (by decide) rfl,
   C8_malformed_input_skipped.1 (fun _ => none),
   C8_malformed_input_skipped.2.2 (fun _ => none) (fun _ _ _ => []) id [] [] ⟨none⟩ rfl⟩

end PromoAgent
